import Mathlib

/-!
Verification of the TrendZee live-trends pipeline.

The development shallowly embeds the Python sources:
  * `services/live_data_service.py`  — the five fetchers, `_make_source_id`,
    `_score_from_value`, `_classify_velocity`, `fetch_all_live_trends`;
  * `services/trend_service.py`      — `get_filtered_trends`,
    `search_trends_for_context`;
  * `trends/management/commands/fetch_live_trends.py` — the reconciliation
    loop (`update_or_create` keyed on `source_id`) and the `--clear` path;
  * `trends/models.py`               — the `Trend` record.

Python strings are embedded as `List Char`, floats as `ℚ` (exact rational
arithmetic; Python's `round(x, 1)` is modelled with Mathlib's `round`, which
agrees with it except exactly at `.05` ties, where no claim below is
sensitive), database rows as Lean structures, and the database table as a
`List` of rows in insertion order.  `hashlib.md5(...).hexdigest()` is
embedded as a full MD5 implementation over byte lists.
-/

abbrev Str := List Char

/-- `str.lower()` (ASCII-faithful; claims do not hinge on Unicode case maps). -/
def lcase (s : Str) : Str := s.map Char.toLower

/-- `str.strip()`: drop leading and trailing whitespace. -/
def stripStr (s : Str) : Str :=
  ((s.dropWhile Char.isWhitespace).reverse.dropWhile Char.isWhitespace).reverse

/-- Boolean substring test: does `needle` occur contiguously inside `hay`? -/
def containsSub (hay needle : Str) : Bool :=
  hay.tails.any (fun t => needle.isPrefixOf t)

/-- Django's `__icontains`: case-insensitive substring match. -/
def icontainsB (hay needle : Str) : Bool :=
  containsSub (lcase hay) (lcase needle)

/-- Python `round(x, 1)`: round to one decimal place. -/
def pyRound1 (x : ℚ) : ℚ := (round (10 * x) : ℤ) / 10

/-!  ### MD5 (`hashlib.md5(raw.encode()).hexdigest()`)  -/

/-- 32-bit left rotation on `Nat` values below `2^32`. -/
def rotl32 (x n : Nat) : Nat := ((x <<< n) ||| (x >>> (32 - n))) % 4294967296

/-- The 64 MD5 sine-derived constants `K[i]`. -/
def md5K : List Nat :=
  [3614090360, 3905402710, 606105819, 3250441966, 4118548399, 1200080426,
   2821735955, 4249261313, 1770035416, 2336552879, 4294925233, 2304563134,
   1804603682, 4254626195, 2792965006, 1236535329, 4129170786, 3225465664,
   643717713, 3921069994, 3593408605, 38016083, 3634488961, 3889429448,
   568446438, 3275163606, 4107603335, 1163531501, 2850285829, 4243563512,
   1735328473, 2368359562, 4294588738, 2272392833, 1839030562, 4259657740,
   2763975236, 1272893353, 4139469664, 3200236656, 681279174, 3936430074,
   3572445317, 76029189, 3654602809, 3873151461, 530742520, 3299628645,
   4096336452, 1126891415, 2878612391, 4237533241, 1700485571, 2399980690,
   4293915773, 2240044497, 1873313359, 4264355552, 2734768916, 1309151649,
   4149444226, 3174756917, 718787259, 3951481745]

/-- The 64 MD5 per-round shift amounts `s[i]`. -/
def md5S : List Nat :=
  [7, 12, 17, 22, 7, 12, 17, 22, 7, 12, 17, 22, 7, 12, 17, 22,
   5, 9, 14, 20, 5, 9, 14, 20, 5, 9, 14, 20, 5, 9, 14, 20,
   4, 11, 16, 23, 4, 11, 16, 23, 4, 11, 16, 23, 4, 11, 16, 23,
   6, 10, 15, 21, 6, 10, 15, 21, 6, 10, 15, 21, 6, 10, 15, 21]

/-- Little-endian byte decomposition: `k` bytes of `n`. -/
def leBytes : Nat → Nat → List Nat
  | 0, _ => []
  | k + 1, n => n % 256 :: leBytes k (n / 256)

/-- Group a 64-byte chunk into 16 little-endian 32-bit words. -/
def toWords : List Nat → List Nat
  | b0 :: b1 :: b2 :: b3 :: rest =>
      (b0 + 256 * b1 + 65536 * b2 + 16777216 * b3) :: toWords rest
  | _ => []

/-- One of the 64 MD5 rounds on state `(a, b, c, d)`. -/
def md5round (M : List Nat) (st : Nat × Nat × Nat × Nat) (i : Nat) :
    Nat × Nat × Nat × Nat :=
  let a := st.1
  let b := st.2.1
  let c := st.2.2.1
  let d := st.2.2.2
  let f :=
    if i < 16 then (b &&& c) ||| ((b ^^^ 4294967295) &&& d)
    else if i < 32 then (d &&& b) ||| ((d ^^^ 4294967295) &&& c)
    else if i < 48 then b ^^^ c ^^^ d
    else c ^^^ (b ||| (d ^^^ 4294967295))
  let g :=
    if i < 16 then i
    else if i < 32 then (5 * i + 1) % 16
    else if i < 48 then (3 * i + 5) % 16
    else (7 * i) % 16
  let tmp := (f + a + (md5K.getD i 0) + (M.getD g 0)) % 4294967296
  (d, (b + rotl32 tmp (md5S.getD i 0)) % 4294967296, b, c)

/-- Compress one 64-byte chunk into the running MD5 state. -/
def md5chunk (st : Nat × Nat × Nat × Nat) (chunk : List Nat) :
    Nat × Nat × Nat × Nat :=
  let M := toWords chunk
  let r := (List.range 64).foldl (md5round M) st
  ((st.1 + r.1) % 4294967296, (st.2.1 + r.2.1) % 4294967296,
   (st.2.2.1 + r.2.2.1) % 4294967296, (st.2.2.2 + r.2.2.2) % 4294967296)

/-- Fuel-driven worker for `chunksOf64`; the fuel bounds the chunk count. -/
def chunksOf64Go : Nat → List Nat → List (List Nat)
  | 0, _ => []
  | _, [] => []
  | fuel + 1, x :: xs => ((x :: xs).take 64) :: chunksOf64Go fuel ((x :: xs).drop 64)

/-- Split a byte list into 64-byte chunks. -/
def chunksOf64 (l : List Nat) : List (List Nat) := chunksOf64Go l.length l

/-- MD5 padding: `0x80`, zeros to 56 mod 64, then the 64-bit bit length. -/
def padBytes (msg : List Nat) : List Nat :=
  msg ++ 128 :: List.replicate ((119 - msg.length % 64) % 64) 0
      ++ leBytes 8 (msg.length * 8)

/-- The 16 raw digest bytes of a byte message. -/
def md5digest (msg : List Nat) : List Nat :=
  let st := (chunksOf64 (padBytes msg)).foldl md5chunk
      (1732584193, 4023233417, 2562383102, 271733878)
  leBytes 4 st.1 ++ leBytes 4 st.2.1 ++ leBytes 4 st.2.2.1 ++ leBytes 4 st.2.2.2

/-- Lower-case hex digit for a value below 16. -/
def hexDigit (n : Nat) : Char :=
  if n < 10 then Char.ofNat (48 + n) else Char.ofNat (87 + n)

/-- Lower-case hex rendering of a byte list. -/
def bytesToHex (bs : List Nat) : Str :=
  bs.foldr (fun b acc => hexDigit (b / 16) :: hexDigit (b % 16) :: acc) []

/-- `hashlib.md5(bs).hexdigest()`. -/
def md5_hexdigest (bs : List Nat) : Str := bytesToHex (md5digest bs)

/-- UTF-8 encoding of one character. -/
def utf8Char (c : Char) : List Nat :=
  let n := c.toNat
  if n < 128 then [n]
  else if n < 2048 then [192 + n / 64, 128 + n % 64]
  else if n < 65536 then [224 + n / 4096, 128 + (n / 64) % 64, 128 + n % 64]
  else [240 + n / 262144, 128 + (n / 4096) % 64, 128 + (n / 64) % 64, 128 + n % 64]

/-- `str.encode()`: UTF-8 bytes of a string. -/
def utf8Bytes (s : Str) : List Nat := (s.map utf8Char).flatten

/-- `_make_source_id(source, identifier)`: MD5 hex of `f"{source}:{identifier}"`. -/
def _make_source_id (source identifier : Str) : Str :=
  md5_hexdigest (utf8Bytes (source ++ ':' :: identifier))

/-!  ### Scores, velocities, and the candidate record  -/

/-- `_score_from_value(value, max_value)`: normalise a value to a 0-100 score. -/
def _score_from_value (value max_value : ℚ) : ℚ :=
  if max_value ≤ 0 then 50 else pyRound1 (min (value / max_value * 100) 100)

/-- The four velocity labels of `Trend.VELOCITY_CHOICES`. -/
inductive Velocity
  | exploding
  | rising
  | steady
  | declining
deriving DecidableEq, Repr

/-- `_classify_velocity(score)`: the default score-threshold classifier. -/
def _classify_velocity (score : ℚ) : Velocity :=
  if 85 ≤ score then .exploding
  else if 60 ≤ score then .rising
  else if 30 ≤ score then .steady
  else .declining

/-- One fetcher-produced trend dict (the `Trend`-model-shaped payload). -/
structure Candidate where
  title : Str
  category : Str
  platform : Str
  description : Str
  score : ℚ
  velocity : Velocity
  likes : ℤ
  shares : ℤ
  comments : ℤ
  source : Str
  external_url : Str
  source_id : Str
deriving DecidableEq, Repr

/-- Decimal digits of a `Nat` (fuel-driven worker). -/
def natDigitsGo : Nat → Nat → Str
  | 0, _ => []
  | fuel + 1, n => if n = 0 then [] else natDigitsGo fuel (n / 10) ++ [hexDigit (n % 10)]

/-- Decimal rendering of a `Nat`. -/
def natDigits (n : Nat) : Str :=
  if n = 0 then ['0'] else natDigitsGo (n + 1) n

/-- Fixed-point rendering with `d` decimals, standing in for Python's
`f"{x:.df}"` (identical up to float tie-breaking, which no claim observes). -/
def fmtFixed (d : Nat) (q : ℚ) : Str :=
  let n := (round (|q| * (10 : ℚ) ^ d)).toNat
  let fp := natDigits (n % 10 ^ d)
  (if q < 0 then ['-'] else []) ++ natDigits (n / 10 ^ d) ++
    (if d = 0 then [] else '.' :: (List.replicate (d - fp.length) '0' ++ fp))

/-- Python's `f"{n:,}"` thousands grouping is presentation-only; the plain
decimal rendering stands in for it (no claim observes the separators). -/
def fmtComma (n : ℤ) : Str :=
  (if n < 0 then ['-'] else []) ++ natDigits n.natAbs

/-!  ### GoogleTrendsFetcher  -/

/-- The candidate built for row `idx` of the trending-searches frame, after
the title has been `str(...).strip()`-ed. -/
def googleItem (idx : ℕ) (title : Str) : Candidate :=
  let score := max (pyRound1 (95 - idx * (7 / 2))) 20
  { title := title
    category := "other".toList
    platform := "twitter".toList
    description := '"' :: title ++ ('"' :: (" is currently trending on Google Search. This topic is generating significant search interest and social media discussion across platforms.".toList))
    score := score
    velocity := _classify_velocity score
    likes := 0
    shares := 0
    comments := 0
    source := "google_trends".toList
    external_url := "https://trends.google.com/trends/explore?q=".toList ++
      title.map (fun c => if c = ' ' then '+' else c)
    source_id := _make_source_id ("google_trends".toList) (lcase title) }

/-- `GoogleTrendsFetcher.fetch`: the trending-searches frame is embedded as
its column of raw titles; rows with an empty stripped title are skipped, and
`idx` is the dataframe row index. -/
def GoogleTrendsFetcher_fetch (rows : List Str) (count : ℕ) : List Candidate :=
  (((rows.take count).enum).filter (fun p => decide (stripStr p.2 ≠ []))).map
    (fun p => googleItem p.1 (stripStr p.2))

/-!  ### StockTrendsFetcher  -/

/-- One entry of the `movers` list built from the yfinance watchlist. -/
structure Mover where
  symbol : Str
  price : ℚ
  change_pct : ℚ
  market_cap : ℚ
deriving DecidableEq, Repr

/-- The descending-absolute-change comparison used by
`movers.sort(key=lambda x: abs(x['change_pct']), reverse=True)`. -/
def moverDesc (a b : Mover) : Prop := |b.change_pct| ≤ |a.change_pct|

instance : DecidableRel moverDesc :=
  fun a b => inferInstanceAs (Decidable (|b.change_pct| ≤ |a.change_pct|))

instance : IsTotal Mover moverDesc := ⟨fun a b => le_total |b.change_pct| |a.change_pct|⟩

instance : IsTrans Mover moverDesc := ⟨fun _ _ _ h1 h2 => le_trans h2 h1⟩

/-- `movers.sort(key=lambda x: abs(x['change_pct']), reverse=True)`: Python's
stable sort, embedded as a stable insertion sort (stable sorts agree). -/
def sortMovers (movers : List Mover) : List Mover :=
  List.insertionSort moverDesc movers

/-- The candidate built from one mover. -/
def stockItem (m : Mover) : Candidate :=
  let change := m.change_pct
  let direction := if 0 < change then "📈 up".toList else "📉 down".toList
  let score := min (|change| * 15 + 40) 99
  let velocity : Velocity :=
    if 3 < change then .exploding
    else if 0 < change then .rising
    else if -2 < change then .steady
    else .declining
  { title := m.symbol ++ ' ' :: direction ++ ' ' :: fmtFixed 1 |change| ++
      ("% — $".toList) ++ fmtFixed 2 m.price
    category := "business".toList
    platform := "twitter".toList
    description := m.symbol ++ (" stock is ".toList) ++ direction ++ ' ' ::
      fmtFixed 1 |change| ++ ("% today, trading at $".toList) ++
      fmtFixed 2 m.price ++ (". Market cap: $".toList) ++
      fmtFixed 1 (m.market_cap / 1000000000) ++
      ("B. This move is generating discussion across financial communities.".toList)
    score := pyRound1 score
    velocity := velocity
    likes := 0
    shares := 0
    comments := 0
    source := "stocks".toList
    external_url := "https://finance.yahoo.com/quote/".toList ++ m.symbol ++ ['/']
    source_id := _make_source_id ("stocks".toList) m.symbol }

/-- `StockTrendsFetcher.fetch`: sort the movers by `abs(change_pct)`
descending, keep the first `count`, and build candidates. -/
def StockTrendsFetcher_fetch (movers : List Mover) (count : ℕ) : List Candidate :=
  ((sortMovers movers).take count).map stockItem

/-!  ### NewsTrendsFetcher  -/

/-- One GNews article as consumed by `NewsTrendsFetcher.fetch` (fields after
the `.get(...)` defaulting). -/
structure Article where
  title : Str
  description : Str
  source_name : Str
  url : Str
deriving DecidableEq, Repr

/-- One feedparser entry as consumed by the RSS fallbacks. -/
structure RssEntry where
  title : Str
  link : Str
  summary : Str
deriving DecidableEq, Repr

/-- The candidate built from GNews article `idx`. -/
def gnewsItem (idx : ℕ) (a : Article) : Candidate :=
  let title := stripStr a.title
  let score := max (pyRound1 (90 - idx * 3)) 25
  { title := title
    category := "other".toList
    platform := "twitter".toList
    description :=
      if a.description ≠ [] then
        '[' :: a.source_name ++ (']' :: ' ' :: a.description)
      else
        ("Breaking news from ".toList) ++ a.source_name ++ ['.']
    score := score
    velocity := _classify_velocity score
    likes := 0
    shares := 0
    comments := 0
    source := "news".toList
    external_url := a.url
    source_id := _make_source_id ("news".toList) ((lcase title).take 100) }

/-- The GNews (primary) path of `NewsTrendsFetcher.fetch`. -/
def NewsTrendsFetcher_fetch_gnews (articles : List Article) (count : ℕ) :
    List Candidate :=
  ((articles.take count).enum).map (fun p => gnewsItem p.1 p.2)

/-- The candidate built from Google-News RSS entry `idx`
(`NewsTrendsFetcher._fetch_rss_fallback`). -/
def newsRssItem (idx : ℕ) (e : RssEntry) : Candidate :=
  let title := stripStr e.title
  let score := max (pyRound1 (88 - idx * 4)) 20
  { title := title
    category := "other".toList
    platform := "twitter".toList
    description :=
      if e.summary ≠ [] then e.summary.take 300
      else "Top news story trending across platforms.".toList
    score := score
    velocity := _classify_velocity score
    likes := 0
    shares := 0
    comments := 0
    source := "news".toList
    external_url := e.link
    source_id := _make_source_id ("news".toList) ((lcase title).take 100) }

/-- `NewsTrendsFetcher._fetch_rss_fallback`. -/
def NewsTrendsFetcher_fetch_rss (entries : List RssEntry) (count : ℕ) :
    List Candidate :=
  ((entries.take count).enum).map (fun p => newsRssItem p.1 p.2)

/-- `NewsTrendsFetcher.fetch`: with no API key, or when the GNews request
fails, fall back to the RSS path; otherwise use the GNews articles. -/
def NewsTrendsFetcher_fetch (api_key : Str) (gnews : Except Str (List Article))
    (entries : List RssEntry) (count : ℕ) : List Candidate :=
  if api_key = [] then NewsTrendsFetcher_fetch_rss entries count
  else
    match gnews with
    | .error _ => NewsTrendsFetcher_fetch_rss entries count
    | .ok articles => NewsTrendsFetcher_fetch_gnews articles count

/-!  ### YouTubeTrendsFetcher  -/

/-- The candidate built from feed entry `idx` of `YouTubeTrendsFetcher.fetch`. -/
def youtubeItem (idx : ℕ) (e : RssEntry) : Candidate :=
  let title := stripStr e.title
  let score := max (pyRound1 (85 - idx * (7 / 2))) 20
  { title := title
    category := "entertainment".toList
    platform := "youtube".toList
    description :=
      if e.summary ≠ [] then e.summary.take 300
      else "This video is trending on YouTube with significant viewer engagement.".toList
    score := score
    velocity := _classify_velocity score
    likes := 0
    shares := 0
    comments := 0
    source := "youtube".toList
    external_url := e.link
    source_id := _make_source_id ("youtube".toList) ((lcase title).take 100) }

/-- `YouTubeTrendsFetcher.fetch` over the parsed feed entries. -/
def YouTubeTrendsFetcher_fetch (entries : List RssEntry) (count : ℕ) :
    List Candidate :=
  ((entries.take count).enum).map (fun p => youtubeItem p.1 p.2)

/-!  ### MusicTrendsFetcher  -/

/-- One Last.fm chart track (fields after `.get(...)`/`int(...)` coercion). -/
structure TrackEntry where
  name : Str
  artist : Str
  listeners : ℤ
  playcount : ℤ
  url : Str
deriving DecidableEq, Repr

/-- The candidate built from one Last.fm chart track. -/
def lastfmItem (t : TrackEntry) : Candidate :=
  let score := max (_score_from_value t.listeners 5000000) 20
  { title := "🎵 ".toList ++ t.name ++ (" — ".toList) ++ t.artist
    category := "music".toList
    platform := "tiktok".toList
    description := '"' :: t.name ++ ('"' :: (" by ".toList)) ++ t.artist ++
      (" is trending in global music charts. ".toList) ++ fmtComma t.listeners ++
      (" listeners, ".toList) ++ fmtComma t.playcount ++
      (" plays. This track is driving engagement across streaming and social platforms.".toList)
    score := pyRound1 score
    velocity := _classify_velocity score
    likes := t.listeners
    shares := t.playcount.fdiv 10
    comments := t.playcount.fdiv 50
    source := "music".toList
    external_url := t.url
    source_id := _make_source_id ("music".toList) (lcase (t.artist ++ ':' :: t.name)) }

/-- The Last.fm (primary) path of `MusicTrendsFetcher.fetch`. -/
def MusicTrendsFetcher_fetch_lastfm (tracks : List TrackEntry) (count : ℕ) :
    List Candidate :=
  (tracks.take count).map lastfmItem

/-- The candidate built from RSS entry `idx` of
`MusicTrendsFetcher._fetch_rss_fallback`. -/
def musicRssItem (idx : ℕ) (e : RssEntry) : Candidate :=
  let title := stripStr e.title
  let score := max (pyRound1 (80 - idx * 4)) 20
  { title := "🎵 ".toList ++ title
    category := "music".toList
    platform := "tiktok".toList
    description := "Music trend: ".toList ++ title
    score := score
    velocity := _classify_velocity score
    likes := 0
    shares := 0
    comments := 0
    source := "music".toList
    external_url := e.link
    source_id := _make_source_id ("music".toList) ((lcase title).take 100) }

/-- `MusicTrendsFetcher._fetch_rss_fallback`. -/
def MusicTrendsFetcher_fetch_rss (entries : List RssEntry) (count : ℕ) :
    List Candidate :=
  ((entries.take count).enum).map (fun p => musicRssItem p.1 p.2)

/-- `MusicTrendsFetcher.fetch`: RSS fallback without an API key or on a
request failure, Last.fm otherwise. -/
def MusicTrendsFetcher_fetch (api_key : Str) (lastfm : Except Str (List TrackEntry))
    (entries : List RssEntry) (count : ℕ) : List Candidate :=
  if api_key = [] then MusicTrendsFetcher_fetch_rss entries count
  else
    match lastfm with
    | .error _ => MusicTrendsFetcher_fetch_rss entries count
    | .ok tracks => MusicTrendsFetcher_fetch_lastfm tracks count

/-!  ### `fetch_all_live_trends` (the aggregator)  -/

/-- `results[source] = value` on a Python dict embedded as an assoc list in
insertion order: overwrite the (unique) existing entry or append a new one. -/
def setEntry : List (Str × List Candidate) → Str → List Candidate →
    List (Str × List Candidate)
  | [], k, v => [(k, v)]
  | p :: ps, k, v => if p.1 = k then (k, v) :: ps else p :: setEntry ps k v

/-- Dict lookup on the embedded assoc list. -/
def dictGet (m : List (Str × List Candidate)) (k : Str) : Option (List Candidate) :=
  match m with
  | [] => none
  | p :: ps => if p.1 = k then some p.2 else dictGet ps k

/-- The loop body of `fetch_all_live_trends`.  A fetcher's behaviour is
embedded as `impl : Str → Option (Except Str (List Candidate))`: `none` means
the name is not in `FETCHERS` (logged and skipped, no entry recorded),
`some (.error e)` a fetcher whose `fetch()` raises (caught; an empty list is
recorded), `some (.ok l)` a successful fetch. -/
def fetchStep (impl : Str → Option (Except Str (List Candidate)))
    (results : List (Str × List Candidate)) (source : Str) :
    List (Str × List Candidate) :=
  match impl source with
  | none => results
  | some (.error _) => setEntry results source []
  | some (.ok l) => setEntry results source l

/-- `fetch_all_live_trends(sources)`: run every requested source through
`fetchStep`, building the result dict.  The aggregator itself is a total
function: it never raises. -/
def fetch_all_live_trends (impl : Str → Option (Except Str (List Candidate)))
    (sources : List Str) : List (Str × List Candidate) :=
  sources.foldl (fetchStep impl) []

/-!  ### The `Trend` table (`trends/models.py`)

A stored row.  `created_at`/`updated_at` are `auto_now_add`/`auto_now`
timestamps, embedded as naturals; the table is a `List Trend` in insertion
order (the tie order a `SELECT` without a governing `ORDER BY` column
exhibits).  `source_id` is unique among the non-empty values (DB constraint);
the reconciliation proofs do not assume it unless stated.  -/

structure Trend where
  title : Str
  category : Str
  platform : Str
  description : Str
  score : ℚ
  velocity : Velocity
  likes : ℤ
  shares : ℤ
  comments : ℤ
  source : Str
  external_url : Str
  source_id : Str
  created_at : ℕ
  updated_at : ℕ
deriving DecidableEq, Repr

/-!  ### `TrendService` (`services/trend_service.py`)  -/

/-- The `-score` comparison used by `order_by('-score')`. -/
def scoreDesc (a b : Trend) : Prop := b.score ≤ a.score

instance : DecidableRel scoreDesc :=
  fun a b => inferInstanceAs (Decidable (b.score ≤ a.score))

instance : IsTotal Trend scoreDesc := ⟨fun a b => le_total b.score a.score⟩

instance : IsTrans Trend scoreDesc := ⟨fun _ _ _ h1 h2 => le_trans h2 h1⟩

/-- `TrendService.get_filtered_trends(category, search, platform, source)`:
apply each non-empty filter in turn, then `order_by('-score')` (which
*replaces* the model's default `['-score', '-created_at']` ordering; ties
keep the table order, embedded by a stable sort). -/
def get_filtered_trends (store : List Trend)
    (category search platform source : Str) : List Trend :=
  let qs := store
  let qs := if category = [] then qs else qs.filter (fun t => decide (t.category = category))
  let qs := if platform = [] then qs else qs.filter (fun t => decide (t.platform = platform))
  let qs := if source = [] then qs else qs.filter (fun t => decide (t.source = source))
  let qs := if search = [] then qs else
    qs.filter (fun t => icontainsB t.title search || icontainsB t.description search)
  List.insertionSort scoreDesc qs

/-- The reduced-field projection returned by
`TrendService.search_trends_for_context`. -/
structure CtxRecord where
  title : Str
  category : Str
  platform : Str
  description : Str
  score : ℚ
  velocity : Velocity
  likes : ℤ
  shares : ℤ
  comments : ℤ
deriving DecidableEq, Repr

/-- `TrendService.search_trends_for_context(keywords, limit)`: empty keyword
list short-circuits to `[]`; otherwise OR the per-keyword `icontains` tests
over title, description and category, order by `-score`, take `limit`, and
project with the description truncated to 300 characters. -/
def search_trends_for_context (store : List Trend) (keywords : List Str)
    (limit : ℕ) : List CtxRecord :=
  if keywords = [] then []
  else
    let matched := store.filter (fun t => keywords.any (fun kw =>
      icontainsB t.title kw || icontainsB t.description kw || icontainsB t.category kw))
    (((List.insertionSort scoreDesc matched)).take limit).map (fun t =>
      { title := t.title
        category := t.category
        platform := t.platform
        description := t.description.take 300
        score := t.score
        velocity := t.velocity
        likes := t.likes
        shares := t.shares
        comments := t.comments })

/-!  ### Reconciliation (`fetch_live_trends` management command)  -/

/-- The `defaults=trend_data` overwrite performed by `update_or_create` when a
row with the candidate's `source_id` already exists: every mutable field is
replaced, `updated_at` is refreshed (`auto_now`), and `source_id` and
`created_at` are kept. -/
def applyDefaults (t : Trend) (c : Candidate) (now : ℕ) : Trend :=
  { title := c.title
    category := c.category
    platform := c.platform
    description := c.description
    score := c.score
    velocity := c.velocity
    likes := c.likes
    shares := c.shares
    comments := c.comments
    source := c.source
    external_url := c.external_url
    source_id := t.source_id
    created_at := t.created_at
    updated_at := now }

/-- The row inserted by `update_or_create` when no row with the candidate's
`source_id` exists: `created_at` (`auto_now_add`) and `updated_at` are both
set to now. -/
def newTrend (c : Candidate) (now : ℕ) : Trend :=
  { title := c.title
    category := c.category
    platform := c.platform
    description := c.description
    score := c.score
    velocity := c.velocity
    likes := c.likes
    shares := c.shares
    comments := c.comments
    source := c.source
    external_url := c.external_url
    source_id := c.source_id
    created_at := now
    updated_at := now }

/-- `Trend.objects.update_or_create(source_id=..., defaults=trend_data)`:
update the matching row in place, or append a fresh row. -/
def update_or_create (c : Candidate) (now : ℕ) : List Trend → List Trend
  | [] => [newTrend c now]
  | t :: ts =>
      if t.source_id = c.source_id then applyDefaults t c now :: ts
      else t :: update_or_create c now ts

/-- The per-candidate body of `Command.handle`: candidates whose popped
`source_id` is falsy (`if not source_id: continue`) are skipped, the rest are
upserted. -/
def reconcileStep (now : ℕ) (store : List Trend) (c : Candidate) : List Trend :=
  if c.source_id = [] then store else update_or_create c now store

/-- The reconciliation loop of `Command.handle` over the flattened candidate
lists of one engine run (all rows of a run share the request timestamp). -/
def reconcile (cs : List Candidate) (now : ℕ) (store : List Trend) : List Trend :=
  cs.foldl (reconcileStep now) store

/-- `Trend.objects.exclude(source='manual').delete()` (the `--clear` path):
the rows kept, paired with the number of `Trend` rows deleted. -/
def clear_non_manual (store : List Trend) : List Trend × ℕ :=
  (store.filter (fun t => decide (t.source = "manual".toList)),
   (store.filter (fun t => decide (t.source ≠ "manual".toList))).length)

/-!  ### Concrete inputs used by the witness theorems

Scores and prices below are integer literals and percentage changes are
`Rat.divInt` values, so that every comparison the witnesses force the kernel
to evaluate stays on already-normalised rationals. -/

/-- A concrete sharply falling mover. -/
def moverTSLA : Mover :=
  { symbol := "TSLA".toList
    price := 250
    change_pct := Rat.divInt (-52) 10
    market_cap := 800000000000 }

/-- Mover with change +5.2% (the spec's market-movers example). -/
def moverP52 : Mover :=
  { symbol := "AAPL".toList, price := 100, change_pct := Rat.divInt 52 10, market_cap := 0 }

/-- Mover with change -1.0%. -/
def moverM10 : Mover :=
  { symbol := "MSFT".toList, price := 100, change_pct := -1, market_cap := 0 }

/-- Mover with change +0.3%. -/
def moverP03 : Mover :=
  { symbol := "GOOG".toList, price := 100, change_pct := Rat.divInt 3 10, market_cap := 0 }

/-- Mover with change -4.8%. -/
def moverM48 : Mover :=
  { symbol := "AMZN".toList, price := 100, change_pct := Rat.divInt (-48) 10, market_cap := 0 }

/-- A neutral candidate record to build concrete candidates from. -/
def baseCand : Candidate :=
  { title := []
    category := "other".toList
    platform := "twitter".toList
    description := []
    score := 50
    velocity := .steady
    likes := 0
    shares := 0
    comments := 0
    source := "news".toList
    external_url := []
    source_id := [] }

/-- Candidate with `source_id = "a"`. -/
def candA : Candidate := { baseCand with title := "A".toList, source_id := ['a'] }

/-- Candidate with `source_id = "b"`. -/
def candB : Candidate := { baseCand with title := "B".toList, source_id := ['b'] }

/-- A neutral stored row to build concrete stores from. -/
def baseTrend : Trend :=
  { title := []
    category := "other".toList
    platform := "twitter".toList
    description := []
    score := 50
    velocity := .steady
    likes := 0
    shares := 0
    comments := 0
    source := "manual".toList
    external_url := []
    source_id := []
    created_at := 0
    updated_at := 0 }

/-- First manually entered row. -/
def trManual1 : Trend := { baseTrend with title := "M1".toList, created_at := 1 }

/-- Second manually entered row. -/
def trManual2 : Trend := { baseTrend with title := "M2".toList, created_at := 2 }

/-- Third manually entered row. -/
def trManual3 : Trend := { baseTrend with title := "M3".toList, created_at := 3 }

/-- An API-sourced news row. -/
def trNews1 : Trend :=
  { baseTrend with title := "N1".toList, source := "news".toList
                   source_id := ['n'], created_at := 4 }

/-- An API-sourced stocks row. -/
def trStocks1 : Trend :=
  { baseTrend with title := "S1".toList, source := "stocks".toList
                   source_id := ['s'], created_at := 5 }

/-- A store with three manual and two API-sourced rows. -/
def stC7 : List Trend := [trManual1, trNews1, trManual2, trStocks1, trManual3]

/-- A stored row matching the context-search keyword. -/
def trCtx : Trend :=
  { baseTrend with title := "AI boom".toList
                   category := "technology".toList
                   description := "desc".toList
                   created_at := 1 }

/-- The reduced-field projection of `trCtx`. -/
def ctxRecW : CtxRecord :=
  { title := "AI boom".toList
    category := "technology".toList
    platform := "twitter".toList
    description := "desc".toList
    score := 50
    velocity := .steady
    likes := 0
    shares := 0
    comments := 0 }

/-- The earlier-inserted row of a score tie. -/
def trTieOld : Trend := { baseTrend with title := "old".toList, created_at := 1 }

/-- The later-inserted row of the same score tie. -/
def trTieNew : Trend := { baseTrend with title := "new".toList, created_at := 2 }

/-- Aggregator behaviour: `stocks` raises, `news` succeeds, others unknown. -/
def implW : Str → Option (Except Str (List Candidate)) := fun s =>
  if s = "stocks".toList then some (.error ("boom".toList))
  else if s = "news".toList then some (.ok [candA]) else none

/-- The requested sources for the aggregator witness. -/
def sourcesW : List Str := ["stocks".toList, "news".toList, "bogus".toList]

/-- A GNews article whose title matches `rssW` up to case. -/
def artW : Article :=
  { title := "Election Results Are In".toList
    description := []
    source_name := "X".toList
    url := [] }

/-- An RSS entry whose title matches `artW` up to case. -/
def rssW : RssEntry :=
  { title := "ELECTION RESULTS ARE IN".toList, link := [], summary := [] }

/-!  ## Lemmas about rounding and scores  -/

set_option maxRecDepth 100000

theorem pyRound1_mono {x y : ℚ} (h : x ≤ y) : pyRound1 x ≤ pyRound1 y := by
  unfold pyRound1
  have hr : round (10 * x) ≤ round (10 * y) := by
    rw [round_eq, round_eq]
    exact Int.floor_le_floor (by linarith)
  have h10 : (0 : ℚ) < 10 := by norm_num
  exact (div_le_div_iff_of_pos_right h10).mpr (by exact_mod_cast hr)

theorem pyRound1_intCast (n : ℤ) : pyRound1 (n : ℚ) = n := by
  unfold pyRound1
  have h : (10 : ℚ) * n = ((10 * n : ℤ) : ℚ) := by push_cast; ring
  rw [h, round_intCast]
  push_cast
  field_simp

theorem pyRound1_le_intCast {x : ℚ} {n : ℤ} (h : x ≤ (n : ℚ)) :
    pyRound1 x ≤ (n : ℚ) := by
  calc pyRound1 x ≤ pyRound1 n := pyRound1_mono h
  _ = n := pyRound1_intCast n

theorem intCast_le_pyRound1 {n : ℤ} {x : ℚ} (h : (n : ℚ) ≤ x) :
    (n : ℚ) ≤ pyRound1 x := by
  calc (n : ℚ) = pyRound1 n := (pyRound1_intCast n).symm
  _ ≤ pyRound1 x := pyRound1_mono h

theorem pyRound1_div10 (n : ℤ) : pyRound1 ((n : ℚ) / 10) = (n : ℚ) / 10 := by
  unfold pyRound1
  have h : (10 : ℚ) * ((n : ℚ) / 10) = (n : ℚ) := by field_simp
  rw [h, round_intCast]

theorem pyRound1_pyRound1 (x : ℚ) : pyRound1 (pyRound1 x) = pyRound1 x := by
  have h : pyRound1 x = ((round (10 * x) : ℤ) : ℚ) / 10 := rfl
  rw [h, pyRound1_div10]

theorem pyRound1_max20 (x : ℚ) :
    pyRound1 (max (pyRound1 x) 20) = max (pyRound1 x) 20 := by
  rcases le_total (pyRound1 x) 20 with h | h
  · rw [max_eq_right h]
    have h20 := pyRound1_intCast 20
    simpa using h20
  · rw [max_eq_left h, pyRound1_pyRound1]

theorem max20_nonneg (x : ℚ) : 0 ≤ max x 20 :=
  le_trans (by norm_num) (le_max_right x 20)

theorem max20_le {x u : ℚ} (hx : x ≤ u) (hu : 20 ≤ u) : max x 20 ≤ u :=
  max_le hx hu

theorem maxc_nonneg {x c : ℚ} (hc : 0 ≤ c) : 0 ≤ max x c :=
  le_trans hc (le_max_right x c)

theorem maxc_le {x c u : ℚ} (hx : x ≤ u) (hc : c ≤ u) : max x c ≤ u :=
  max_le hx hc

theorem pyRound1_maxc_bounds {v c : ℚ} {u : ℤ} (hv : v ≤ (u : ℚ)) (hc0 : 0 ≤ c)
    (hcu : c ≤ (u : ℚ)) (hu : (u : ℚ) ≤ 100) :
    0 ≤ max (pyRound1 v) c ∧ max (pyRound1 v) c ≤ 100 :=
  ⟨maxc_nonneg hc0, le_trans (maxc_le (pyRound1_le_intCast hv) hcu) hu⟩

/-- The Last.fm score expression is already one-decimal, so the final
`round(score, 1)` is the identity on it. -/
theorem lastfm_score_round (v : ℤ) :
    pyRound1 (max (_score_from_value (v : ℚ) 5000000) 20)
      = max (_score_from_value (v : ℚ) 5000000) 20 := by
  have hs : _score_from_value (v : ℚ) 5000000
      = pyRound1 (min ((v : ℚ) / 5000000 * 100) 100) := by
    unfold _score_from_value
    rw [if_neg (by norm_num)]
  rw [hs]
  exact pyRound1_max20 _

/-!  ## Per-fetcher facts: velocity consistency  -/

theorem googleFetch_velocity (rows : List Str) (count : ℕ) :
    ∀ c ∈ GoogleTrendsFetcher_fetch rows count,
      c.velocity = _classify_velocity c.score := by
  intro c hc
  simp only [GoogleTrendsFetcher_fetch, List.mem_map, List.mem_filter] at hc
  obtain ⟨p, -, rfl⟩ := hc
  rfl

theorem gnewsFetch_velocity (articles : List Article) (count : ℕ) :
    ∀ c ∈ NewsTrendsFetcher_fetch_gnews articles count,
      c.velocity = _classify_velocity c.score := by
  intro c hc
  simp only [NewsTrendsFetcher_fetch_gnews, List.mem_map] at hc
  obtain ⟨p, -, rfl⟩ := hc
  rfl

theorem newsRssFetch_velocity (entries : List RssEntry) (count : ℕ) :
    ∀ c ∈ NewsTrendsFetcher_fetch_rss entries count,
      c.velocity = _classify_velocity c.score := by
  intro c hc
  simp only [NewsTrendsFetcher_fetch_rss, List.mem_map] at hc
  obtain ⟨p, -, rfl⟩ := hc
  rfl

theorem newsFetch_velocity (key : Str) (gn : Except Str (List Article))
    (entries : List RssEntry) (count : ℕ) :
    ∀ c ∈ NewsTrendsFetcher_fetch key gn entries count,
      c.velocity = _classify_velocity c.score := by
  intro c hc
  unfold NewsTrendsFetcher_fetch at hc
  by_cases hk : key = []
  · rw [if_pos hk] at hc
    exact newsRssFetch_velocity entries count c hc
  · rw [if_neg hk] at hc
    cases gn with
    | error e => exact newsRssFetch_velocity entries count c hc
    | ok articles => exact gnewsFetch_velocity articles count c hc

theorem youtubeFetch_velocity (entries : List RssEntry) (count : ℕ) :
    ∀ c ∈ YouTubeTrendsFetcher_fetch entries count,
      c.velocity = _classify_velocity c.score := by
  intro c hc
  simp only [YouTubeTrendsFetcher_fetch, List.mem_map] at hc
  obtain ⟨p, -, rfl⟩ := hc
  rfl

theorem lastfmFetch_velocity (tracks : List TrackEntry) (count : ℕ) :
    ∀ c ∈ MusicTrendsFetcher_fetch_lastfm tracks count,
      c.velocity = _classify_velocity c.score := by
  intro c hc
  simp only [MusicTrendsFetcher_fetch_lastfm, List.mem_map] at hc
  obtain ⟨t, -, rfl⟩ := hc
  calc (lastfmItem t).velocity
      = _classify_velocity (max (_score_from_value (t.listeners : ℚ) 5000000) 20) := rfl
    _ = _classify_velocity ((lastfmItem t).score) := by
        rw [show (lastfmItem t).score
            = pyRound1 (max (_score_from_value (t.listeners : ℚ) 5000000) 20) from rfl,
          lastfm_score_round]

theorem musicRssFetch_velocity (entries : List RssEntry) (count : ℕ) :
    ∀ c ∈ MusicTrendsFetcher_fetch_rss entries count,
      c.velocity = _classify_velocity c.score := by
  intro c hc
  simp only [MusicTrendsFetcher_fetch_rss, List.mem_map] at hc
  obtain ⟨p, -, rfl⟩ := hc
  rfl

theorem musicFetch_velocity (key : Str) (lf : Except Str (List TrackEntry))
    (entries : List RssEntry) (count : ℕ) :
    ∀ c ∈ MusicTrendsFetcher_fetch key lf entries count,
      c.velocity = _classify_velocity c.score := by
  intro c hc
  unfold MusicTrendsFetcher_fetch at hc
  by_cases hk : key = []
  · rw [if_pos hk] at hc
    exact musicRssFetch_velocity entries count c hc
  · rw [if_neg hk] at hc
    cases lf with
    | error e => exact musicRssFetch_velocity entries count c hc
    | ok tracks => exact lastfmFetch_velocity tracks count c hc

/-!  ## Per-fetcher facts: score bounds  -/

theorem googleFetch_score_bounds (rows : List Str) (count : ℕ) :
    ∀ c ∈ GoogleTrendsFetcher_fetch rows count, 0 ≤ c.score ∧ c.score ≤ 100 := by
  intro c hc
  simp only [GoogleTrendsFetcher_fetch, List.mem_map, List.mem_filter] at hc
  obtain ⟨p, -, rfl⟩ := hc
  exact pyRound1_maxc_bounds (u := 95)
    (by have h0 : (0 : ℚ) ≤ (p.1 : ℚ) * (7 / 2) := by positivity
        push_cast
        linarith)
    (by norm_num) (by norm_num) (by norm_num)

theorem stockFetch_score_bounds (movers : List Mover) (count : ℕ) :
    ∀ c ∈ StockTrendsFetcher_fetch movers count, 0 ≤ c.score ∧ c.score ≤ 100 := by
  intro c hc
  simp only [StockTrendsFetcher_fetch, List.mem_map] at hc
  obtain ⟨m, -, rfl⟩ := hc
  constructor
  · have h : ((0 : ℤ) : ℚ) ≤ min (|m.change_pct| * 15 + 40) 99 := by
      refine le_min ?_ (by norm_num)
      have := abs_nonneg m.change_pct
      push_cast
      linarith
    have := intCast_le_pyRound1 h
    simpa using this
  · have h : min (|m.change_pct| * 15 + 40) 99 ≤ ((99 : ℤ) : ℚ) := by
      push_cast
      exact min_le_right _ _
    have := pyRound1_le_intCast h
    calc (stockItem m).score ≤ ((99 : ℤ) : ℚ) := this
    _ ≤ 100 := by norm_num

theorem gnewsFetch_score_bounds (articles : List Article) (count : ℕ) :
    ∀ c ∈ NewsTrendsFetcher_fetch_gnews articles count,
      0 ≤ c.score ∧ c.score ≤ 100 := by
  intro c hc
  simp only [NewsTrendsFetcher_fetch_gnews, List.mem_map] at hc
  obtain ⟨p, -, rfl⟩ := hc
  exact pyRound1_maxc_bounds (u := 90)
    (by have h0 : (0 : ℚ) ≤ (p.1 : ℚ) * 3 := by positivity
        push_cast
        linarith)
    (by norm_num) (by norm_num) (by norm_num)

theorem newsRssFetch_score_bounds (entries : List RssEntry) (count : ℕ) :
    ∀ c ∈ NewsTrendsFetcher_fetch_rss entries count,
      0 ≤ c.score ∧ c.score ≤ 100 := by
  intro c hc
  simp only [NewsTrendsFetcher_fetch_rss, List.mem_map] at hc
  obtain ⟨p, -, rfl⟩ := hc
  exact pyRound1_maxc_bounds (u := 88)
    (by have h0 : (0 : ℚ) ≤ (p.1 : ℚ) * 4 := by positivity
        push_cast
        linarith)
    (by norm_num) (by norm_num) (by norm_num)

theorem newsFetch_score_bounds (key : Str) (gn : Except Str (List Article))
    (entries : List RssEntry) (count : ℕ) :
    ∀ c ∈ NewsTrendsFetcher_fetch key gn entries count,
      0 ≤ c.score ∧ c.score ≤ 100 := by
  intro c hc
  unfold NewsTrendsFetcher_fetch at hc
  by_cases hk : key = []
  · rw [if_pos hk] at hc
    exact newsRssFetch_score_bounds entries count c hc
  · rw [if_neg hk] at hc
    cases gn with
    | error e => exact newsRssFetch_score_bounds entries count c hc
    | ok articles => exact gnewsFetch_score_bounds articles count c hc

theorem youtubeFetch_score_bounds (entries : List RssEntry) (count : ℕ) :
    ∀ c ∈ YouTubeTrendsFetcher_fetch entries count,
      0 ≤ c.score ∧ c.score ≤ 100 := by
  intro c hc
  simp only [YouTubeTrendsFetcher_fetch, List.mem_map] at hc
  obtain ⟨p, -, rfl⟩ := hc
  exact pyRound1_maxc_bounds (u := 85)
    (by have h0 : (0 : ℚ) ≤ (p.1 : ℚ) * (7 / 2) := by positivity
        push_cast
        linarith)
    (by norm_num) (by norm_num) (by norm_num)

theorem lastfmFetch_score_bounds (tracks : List TrackEntry) (count : ℕ) :
    ∀ c ∈ MusicTrendsFetcher_fetch_lastfm tracks count,
      0 ≤ c.score ∧ c.score ≤ 100 := by
  intro c hc
  simp only [MusicTrendsFetcher_fetch_lastfm, List.mem_map] at hc
  obtain ⟨t, -, rfl⟩ := hc
  have hsc : (lastfmItem t).score
      = max (_score_from_value (t.listeners : ℚ) 5000000) 20 := by
    rw [show (lastfmItem t).score
        = pyRound1 (max (_score_from_value (t.listeners : ℚ) 5000000) 20) from rfl,
      lastfm_score_round]
  have hs : _score_from_value (t.listeners : ℚ) 5000000
      = pyRound1 (min ((t.listeners : ℚ) / 5000000 * 100) 100) := by
    unfold _score_from_value
    rw [if_neg (by norm_num)]
  rw [hsc, hs]
  exact pyRound1_maxc_bounds (u := 100)
    (by push_cast
        exact min_le_right _ _)
    (by norm_num) (by norm_num) (by norm_num)

theorem musicRssFetch_score_bounds (entries : List RssEntry) (count : ℕ) :
    ∀ c ∈ MusicTrendsFetcher_fetch_rss entries count,
      0 ≤ c.score ∧ c.score ≤ 100 := by
  intro c hc
  simp only [MusicTrendsFetcher_fetch_rss, List.mem_map] at hc
  obtain ⟨p, -, rfl⟩ := hc
  exact pyRound1_maxc_bounds (u := 80)
    (by have h0 : (0 : ℚ) ≤ (p.1 : ℚ) * 4 := by positivity
        push_cast
        linarith)
    (by norm_num) (by norm_num) (by norm_num)

theorem musicFetch_score_bounds (key : Str) (lf : Except Str (List TrackEntry))
    (entries : List RssEntry) (count : ℕ) :
    ∀ c ∈ MusicTrendsFetcher_fetch key lf entries count,
      0 ≤ c.score ∧ c.score ≤ 100 := by
  intro c hc
  unfold MusicTrendsFetcher_fetch at hc
  by_cases hk : key = []
  · rw [if_pos hk] at hc
    exact musicRssFetch_score_bounds entries count c hc
  · rw [if_neg hk] at hc
    cases lf with
    | error e => exact musicRssFetch_score_bounds entries count c hc
    | ok tracks => exact lastfmFetch_score_bounds tracks count c hc

/-- **C4.**  Velocity consistency: every candidate produced by any fetcher
other than the market-movers (stocks) fetcher — the Google-Trends fetcher,
the news fetcher on both its GNews and RSS-fallback paths, the YouTube
fetcher, and the music fetcher on both its Last.fm and RSS-fallback paths —
has `velocity = _classify_velocity score` under the fixed thresholds
(score ≥ 85 exploding, 60 ≤ score < 85 rising, 30 ≤ score < 60 steady,
else declining). -/
theorem trendzee_C4_velocity_consistency :
    (∀ rows count, ∀ c ∈ GoogleTrendsFetcher_fetch rows count,
      c.velocity = _classify_velocity c.score)
    ∧ (∀ key gn entries count, ∀ c ∈ NewsTrendsFetcher_fetch key gn entries count,
      c.velocity = _classify_velocity c.score)
    ∧ (∀ entries count, ∀ c ∈ YouTubeTrendsFetcher_fetch entries count,
      c.velocity = _classify_velocity c.score)
    ∧ (∀ key lf entries count, ∀ c ∈ MusicTrendsFetcher_fetch key lf entries count,
      c.velocity = _classify_velocity c.score) :=
  ⟨googleFetch_velocity, newsFetch_velocity, youtubeFetch_velocity, musicFetch_velocity⟩

/-- Witness for C4 at a concrete one-row Google-Trends frame. -/
theorem trendzee_C4_witness :
    (googleItem 0 (stripStr ("Breaking".toList))).velocity
      = _classify_velocity ((googleItem 0 (stripStr ("Breaking".toList))).score) :=
  trendzee_C4_velocity_consistency.1 ["Breaking".toList] 20
    (googleItem 0 (stripStr ("Breaking".toList)))
    (by
      have h : GoogleTrendsFetcher_fetch ["Breaking".toList] 20
          = [googleItem 0 (stripStr ("Breaking".toList))] := rfl
      rw [h]
      exact List.mem_singleton.mpr rfl)

/-- **C5.**  Score bounds: every candidate produced by any of the five
fetchers (search-trends, market-movers, news including its RSS fallback,
video, music including its RSS fallback) has `0 ≤ score ≤ 100`. -/
theorem trendzee_C5_score_bounds :
    (∀ rows count, ∀ c ∈ GoogleTrendsFetcher_fetch rows count,
      0 ≤ c.score ∧ c.score ≤ 100)
    ∧ (∀ movers count, ∀ c ∈ StockTrendsFetcher_fetch movers count,
      0 ≤ c.score ∧ c.score ≤ 100)
    ∧ (∀ key gn entries count, ∀ c ∈ NewsTrendsFetcher_fetch key gn entries count,
      0 ≤ c.score ∧ c.score ≤ 100)
    ∧ (∀ entries count, ∀ c ∈ YouTubeTrendsFetcher_fetch entries count,
      0 ≤ c.score ∧ c.score ≤ 100)
    ∧ (∀ key lf entries count, ∀ c ∈ MusicTrendsFetcher_fetch key lf entries count,
      0 ≤ c.score ∧ c.score ≤ 100) :=
  ⟨googleFetch_score_bounds, stockFetch_score_bounds, newsFetch_score_bounds,
   youtubeFetch_score_bounds, musicFetch_score_bounds⟩

/-- Witness for C5 at a concrete one-element watchlist. -/
theorem trendzee_C5_witness :
    0 ≤ (stockItem moverTSLA).score ∧ (stockItem moverTSLA).score ≤ 100 :=
  trendzee_C5_score_bounds.2.1 [moverTSLA] 15 (stockItem moverTSLA)
    (by
      have h : StockTrendsFetcher_fetch [moverTSLA] 15 = [stockItem moverTSLA] := rfl
      rw [h]
      exact List.mem_singleton.mpr rfl)

/-- **C8.**  Determinism of identifiers: `_make_source_id` is the MD5 hex of
the single string `source + ":" + naturalKey`, hence a deterministic function
of that string — two calls whose joined strings coincide yield identical
output.  (The complementary "differing inputs collide only with negligible
probability" is a probabilistic property of MD5 outside the embedding; the
witness exhibits concrete differing inputs with differing output.) -/
theorem trendzee_C8_identifier_determinism :
    ∀ s1 i1 s2 i2 : Str,
      _make_source_id s1 i1 = md5_hexdigest (utf8Bytes (s1 ++ ':' :: i1))
      ∧ (s1 ++ ':' :: i1 = s2 ++ ':' :: i2 →
          _make_source_id s1 i1 = _make_source_id s2 i2) := by
  intro s1 i1 s2 i2
  refine ⟨rfl, fun h => ?_⟩
  unfold _make_source_id
  rw [h]

/-- Witness for C8: two distinct `(source, naturalKey)` pairs with the same
joined string hash identically, and two differing keys hash differently. -/
theorem trendzee_C8_witness :
    _make_source_id ("ab".toList) (":cd".toList)
        = _make_source_id ("ab:".toList) ("cd".toList)
    ∧ _make_source_id ("news".toList) ("a".toList)
        ≠ _make_source_id ("news".toList) ("b".toList) :=
  ⟨(trendzee_C8_identifier_determinism ("ab".toList) (":cd".toList)
      ("ab:".toList) ("cd".toList)).2 (by decide),
   by decide⟩

/-- **C3.**  Market-movers ordering: `StockTrendsFetcher.fetch` emits the
candidates of the movers sorted by descending absolute percentage change
(`sortMovers` is sorted under `|·.change_pct|`-descending, is a permutation
of the input, and its head dominates every mover's absolute change), not by
signed change. -/
theorem trendzee_C3_movers_abs_ordering :
    ∀ (movers : List Mover) (count : ℕ),
      StockTrendsFetcher_fetch movers count
          = ((sortMovers movers).take count).map stockItem
      ∧ List.Pairwise (fun a b => |b.change_pct| ≤ |a.change_pct|) (sortMovers movers)
      ∧ (sortMovers movers).Perm movers
      ∧ (∀ m0 rest, sortMovers movers = m0 :: rest →
          ∀ m ∈ movers, |m.change_pct| ≤ |m0.change_pct|) := by
  intro movers count
  refine ⟨rfl, List.sorted_insertionSort moverDesc movers,
    List.perm_insertionSort moverDesc movers, ?_⟩
  intro m0 rest hsort m hm
  have hmem : m ∈ m0 :: rest := by
    rw [← hsort]
    exact ((List.perm_insertionSort moverDesc movers).mem_iff).mpr hm
  rcases List.mem_cons.mp hmem with h | h
  · exact h ▸ le_refl _
  · have hp : List.Sorted moverDesc (sortMovers movers) :=
      List.sorted_insertionSort moverDesc movers
    rw [hsort] at hp
    exact (List.pairwise_cons.mp hp).1 m h

/-- Witness for C3 at the spec's example changes `[+5.2, -1.0, +0.3, -4.8]`:
the sort puts the `+5.2%` mover first, and its absolute change dominates. -/
theorem trendzee_C3_witness :
    sortMovers [moverP52, moverM10, moverP03, moverM48]
        = [moverP52, moverM48, moverM10, moverP03]
    ∧ (∀ m ∈ [moverP52, moverM10, moverP03, moverM48],
        |m.change_pct| ≤ |moverP52.change_pct|) :=
  ⟨by decide,
   (trendzee_C3_movers_abs_ordering [moverP52, moverM10, moverP03, moverM48]
      15).2.2.2 moverP52 [moverM48, moverM10, moverP03] (by decide)⟩

/-- The manual/non-manual split of the store is length-complete. -/
theorem clear_partition (store : List Trend) :
    (store.filter (fun t => decide (t.source = "manual".toList))).length
      + (store.filter (fun t => decide (t.source ≠ "manual".toList))).length
      = store.length := by
  induction store with
  | nil => rfl
  | cons t ts ih =>
    rw [List.filter_cons, List.filter_cons]
    by_cases h : t.source = "manual".toList
    · rw [if_pos (decide_eq_true h), if_neg (fun hc => (of_decide_eq_true hc) h)]
      simp only [List.length_cons]
      omega
    · rw [if_neg (fun hc => h (of_decide_eq_true hc)), if_pos (decide_eq_true h)]
      simp only [List.length_cons]
      omega

/-- **C7.**  Clear-non-manual scope: the `--clear` path deletes exactly the
stored rows whose `source` is not `manual` — every kept row is a manual row
of the original store, every manual row is kept (in place, unchanged) — and
the reported count is the number of non-manual rows, so count plus the kept
rows add back up to the whole store. -/
theorem trendzee_C7_clear_non_manual :
    ∀ store : List Trend,
      (clear_non_manual store).1
          = store.filter (fun t => decide (t.source = "manual".toList))
      ∧ (∀ t ∈ (clear_non_manual store).1, t ∈ store ∧ t.source = "manual".toList)
      ∧ (∀ t ∈ store, t.source = "manual".toList → t ∈ (clear_non_manual store).1)
      ∧ (clear_non_manual store).2
          = (store.filter (fun t => decide (t.source ≠ "manual".toList))).length
      ∧ (clear_non_manual store).1.length + (clear_non_manual store).2
          = store.length := by
  intro store
  refine ⟨rfl, ?_, ?_, rfl, clear_partition store⟩
  · intro t ht
    have h := List.mem_filter.mp ht
    exact ⟨h.1, of_decide_eq_true h.2⟩
  · intro t ht hm
    exact List.mem_filter.mpr ⟨ht, decide_eq_true hm⟩

/-- Witness for C7: with three manual and two sourced rows, exactly two rows
are deleted and the three manual rows survive untouched, in store order. -/
theorem trendzee_C7_witness :
    (clear_non_manual stC7).2 = 2
    ∧ (clear_non_manual stC7).1 = [trManual1, trManual2, trManual3]
    ∧ trManual1 ∈ (clear_non_manual stC7).1 :=
  ⟨by decide, by decide,
   (trendzee_C7_clear_non_manual stC7).2.2.1 trManual1 (by decide) (by decide)⟩

/-- **C9.**  Context-search guard: an empty keyword list yields the empty
sequence (no fallback to a broad result set); any result list has at most
`limit` entries; and every returned record's description is truncated to at
most 300 characters. -/
theorem trendzee_C9_context_search_guard :
    ∀ (store : List Trend) (keywords : List Str) (limit : ℕ),
      (keywords = [] → search_trends_for_context store keywords limit = [])
      ∧ (search_trends_for_context store keywords limit).length ≤ limit
      ∧ (∀ r ∈ search_trends_for_context store keywords limit,
          r.description.length ≤ 300) := by
  intro store keywords limit
  refine ⟨fun h => by simp [search_trends_for_context, h], ?_, ?_⟩
  · by_cases h : keywords = []
    · simp [search_trends_for_context, h]
    · unfold search_trends_for_context
      rw [if_neg h, List.length_map]
      exact List.length_take_le _ _
  · intro r hr
    by_cases h : keywords = []
    · simp [search_trends_for_context, h] at hr
    · unfold search_trends_for_context at hr
      rw [if_neg h] at hr
      simp only [List.mem_map] at hr
      obtain ⟨t, -, rfl⟩ := hr
      exact List.length_take_le _ _

/-- Witness for C9: empty keywords yield `[]`; one keyword yields at most
five records, containing the projected row with its short description. -/
theorem trendzee_C9_witness :
    search_trends_for_context [trCtx] [] 5 = []
    ∧ (search_trends_for_context [trCtx] ["ai".toList] 5).length ≤ 5
    ∧ ctxRecW.description.length ≤ 300 :=
  ⟨(trendzee_C9_context_search_guard [trCtx] [] 5).1 rfl,
   (trendzee_C9_context_search_guard [trCtx] ["ai".toList] 5).2.1,
   (trendzee_C9_context_search_guard [trCtx] ["ai".toList] 5).2.2 ctxRecW
     (by
       have h : search_trends_for_context [trCtx] ["ai".toList] 5 = [ctxRecW] := by decide
       rw [h]
       exact List.mem_singleton.mpr rfl)⟩

/-!  ## Aggregator lemmas  -/

/-- The payload the aggregator records for a fetcher outcome. -/
def resultOf : Except Str (List Candidate) → List Candidate
  | .error _ => []
  | .ok l => l

theorem dictGet_setEntry_self (k : Str) (v : List Candidate) :
    ∀ m, dictGet (setEntry m k v) k = some v := by
  intro m
  induction m with
  | nil => simp [setEntry, dictGet]
  | cons p ps ih =>
    by_cases h : p.1 = k
    · simp [setEntry, h, dictGet]
    · simp [setEntry, h, dictGet, ih]

theorem dictGet_setEntry_ne {k' k : Str} (h : k' ≠ k) (v : List Candidate) :
    ∀ m, dictGet (setEntry m k v) k' = dictGet m k' := by
  have hk : k ≠ k' := Ne.symm h
  intro m
  induction m with
  | nil => simp [setEntry, dictGet, hk]
  | cons p ps ih =>
    by_cases hp : p.1 = k
    · subst hp
      simp only [setEntry, if_pos rfl, dictGet]
      rw [if_neg hk, if_neg hk]
    · simp only [setEntry]
      rw [if_neg hp]
      simp only [dictGet]
      by_cases hpk : p.1 = k'
      · rw [if_pos hpk, if_pos hpk]
      · rw [if_neg hpk, if_neg hpk, ih]

theorem fetchStep_get_ne (impl : Str → Option (Except Str (List Candidate)))
    {s src : Str} (h : src ≠ s) (m : List (Str × List Candidate)) :
    dictGet (fetchStep impl m src) s = dictGet m s := by
  unfold fetchStep
  cases impl src with
  | none => rfl
  | some r =>
    cases r with
    | error e => exact dictGet_setEntry_ne (fun hc => h hc.symm) _ m
    | ok l => exact dictGet_setEntry_ne (fun hc => h hc.symm) _ m

theorem fetchAll_go_skip (impl : Str → Option (Except Str (List Candidate)))
    (s : Str) (hs : impl s = none) :
    ∀ (sources : List Str) (acc : List (Str × List Candidate)),
      dictGet (sources.foldl (fetchStep impl) acc) s = dictGet acc s := by
  intro sources
  induction sources with
  | nil => intro acc; rfl
  | cons src rest ih =>
    intro acc
    rw [List.foldl_cons, ih]
    by_cases h : src = s
    · subst h
      unfold fetchStep
      rw [hs]
    · exact fetchStep_get_ne impl h acc

theorem fetchAll_go_not_mem (impl : Str → Option (Except Str (List Candidate)))
    (s : Str) :
    ∀ (sources : List Str) (acc : List (Str × List Candidate)), s ∉ sources →
      dictGet (sources.foldl (fetchStep impl) acc) s = dictGet acc s := by
  intro sources
  induction sources with
  | nil => intro acc _; rfl
  | cons src rest ih =>
    intro acc hmem
    rw [List.foldl_cons, ih _ (fun hr => hmem (List.mem_cons_of_mem src hr))]
    exact fetchStep_get_ne impl
      (fun hc => hmem (by rw [hc]; exact List.mem_cons_self s rest)) acc

theorem fetchAll_go_mem (impl : Str → Option (Except Str (List Candidate)))
    (s : Str) (r : Except Str (List Candidate)) (hr : impl s = some r) :
    ∀ (sources : List Str) (acc : List (Str × List Candidate)), s ∈ sources →
      dictGet (sources.foldl (fetchStep impl) acc) s = some (resultOf r) := by
  intro sources
  induction sources with
  | nil => intro acc h; exact absurd h (List.not_mem_nil s)
  | cons src rest ih =>
    intro acc hmem
    rw [List.foldl_cons]
    by_cases hrest : s ∈ rest
    · exact ih _ hrest
    · have hsrc : s = src := by
        rcases List.mem_cons.mp hmem with h | h
        · exact h
        · exact absurd h hrest
      subst hsrc
      rw [fetchAll_go_not_mem impl s rest _ hrest]
      unfold fetchStep
      rw [hr]
      cases r with
      | error e => exact dictGet_setEntry_self s [] acc
      | ok l => exact dictGet_setEntry_self s l acc

/-- **C2.**  Aggregator isolation: `fetch_all_live_trends` is a total
function (it cannot itself raise); for a requested source whose fetcher
raises, the result dict records the empty list for that source; for a
requested source whose fetcher succeeds, its list is returned intact
regardless of the other fetchers; and an unknown source name gets no entry
at all. -/
theorem trendzee_C2_aggregator_isolation :
    ∀ (impl : Str → Option (Except Str (List Candidate))) (sources : List Str)
      (s : Str) (e : Str) (l : List Candidate),
      (impl s = none → dictGet (fetch_all_live_trends impl sources) s = none)
      ∧ (s ∈ sources → impl s = some (.error e) →
          dictGet (fetch_all_live_trends impl sources) s = some [])
      ∧ (s ∈ sources → impl s = some (.ok l) →
          dictGet (fetch_all_live_trends impl sources) s = some l) := by
  intro impl sources s e l
  refine ⟨fun h => ?_, fun hmem h => ?_, fun hmem h => ?_⟩
  · rw [fetch_all_live_trends, fetchAll_go_skip impl s h sources]
    rfl
  · exact fetchAll_go_mem impl s (.error e) h sources [] hmem
  · exact fetchAll_go_mem impl s (.ok l) h sources [] hmem

/-- Witness for C2: with `stocks` raising, `news` succeeding and `bogus`
unknown, the batch records `[]` for stocks, the full list for news, and no
entry for bogus. -/
theorem trendzee_C2_witness :
    dictGet (fetch_all_live_trends implW sourcesW) ("stocks".toList) = some []
    ∧ dictGet (fetch_all_live_trends implW sourcesW) ("news".toList) = some [candA]
    ∧ dictGet (fetch_all_live_trends implW sourcesW) ("bogus".toList) = none :=
  ⟨(trendzee_C2_aggregator_isolation implW sourcesW ("stocks".toList)
      ("boom".toList) []).2.1 (by decide) rfl,
   (trendzee_C2_aggregator_isolation implW sourcesW ("news".toList)
      ("boom".toList) [candA]).2.2 (by decide) rfl,
   (trendzee_C2_aggregator_isolation implW sourcesW ("bogus".toList)
      ("boom".toList) []).1 rfl⟩

/-!  ## Reconciliation lemmas  -/

/-- The key-and-creation-time projection of a stored row: exactly what a
second identical engine run must leave unchanged. -/
def sidCreated (t : Trend) : Str × ℕ := (t.source_id, t.created_at)

theorem update_or_create_not_found (c : Candidate) (now : ℕ) :
    ∀ store : List Trend, (∀ u ∈ store, u.source_id ≠ c.source_id) →
      update_or_create c now store = store ++ [newTrend c now] := by
  intro store
  induction store with
  | nil => intro _; rfl
  | cons t ts ih =>
    intro h
    simp only [update_or_create]
    rw [if_neg (h t (List.mem_cons_self t ts)),
      ih (fun u hu => h u (List.mem_cons_of_mem t hu))]
    rfl

theorem update_or_create_found (c : Candidate) (now : ℕ) :
    ∀ (pre : List Trend) (t : Trend) (post : List Trend),
      (∀ u ∈ pre, u.source_id ≠ c.source_id) → t.source_id = c.source_id →
      update_or_create c now (pre ++ t :: post)
        = pre ++ applyDefaults t c now :: post := by
  intro pre
  induction pre with
  | nil =>
    intro t post _ ht
    simp only [List.nil_append, update_or_create]
    rw [if_pos ht]
  | cons u us ih =>
    intro t post h ht
    simp only [List.cons_append, update_or_create]
    rw [if_neg (h u (List.mem_cons_self u us))]
    show u :: update_or_create c now (us ++ t :: post) = _
    rw [ih t post (fun v hv => h v (List.mem_cons_of_mem u hv)) ht]

theorem update_or_create_map_sidCreated (c : Candidate) (now : ℕ) :
    ∀ store : List Trend, (∃ t ∈ store, t.source_id = c.source_id) →
      (update_or_create c now store).map sidCreated = store.map sidCreated := by
  intro store
  induction store with
  | nil => intro h; simp at h
  | cons t ts ih =>
    intro h
    by_cases ht : t.source_id = c.source_id
    · simp only [update_or_create, if_pos ht, List.map_cons]
      rfl
    · obtain ⟨u, hu, hsid⟩ := h
      rcases List.mem_cons.mp hu with rfl | hu'
      · exact absurd hsid ht
      · simp only [update_or_create, if_neg ht, List.map_cons]
        rw [ih ⟨u, hu', hsid⟩]

theorem exists_sid_update_or_create (c : Candidate) (now : ℕ) (x : Str) :
    ∀ store : List Trend, (∃ t ∈ store, t.source_id = x) →
      ∃ t ∈ update_or_create c now store, t.source_id = x := by
  intro store
  induction store with
  | nil => intro h; simp at h
  | cons t ts ih =>
    intro h
    obtain ⟨u, hu, hx⟩ := h
    by_cases ht : t.source_id = c.source_id
    · simp only [update_or_create, if_pos ht]
      rcases List.mem_cons.mp hu with rfl | hu'
      · exact ⟨applyDefaults u c now, List.mem_cons_self _ _, hx⟩
      · exact ⟨u, List.mem_cons_of_mem _ hu', hx⟩
    · simp only [update_or_create, if_neg ht]
      rcases List.mem_cons.mp hu with rfl | hu'
      · exact ⟨u, List.mem_cons_self _ _, hx⟩
      · obtain ⟨v, hv, hvx⟩ := ih ⟨u, hu', hx⟩
        exact ⟨v, List.mem_cons_of_mem _ hv, hvx⟩

theorem self_sid_update_or_create (c : Candidate) (now : ℕ) :
    ∀ store : List Trend,
      ∃ t ∈ update_or_create c now store, t.source_id = c.source_id := by
  intro store
  induction store with
  | nil => exact ⟨newTrend c now, List.mem_singleton.mpr rfl, rfl⟩
  | cons t ts ih =>
    by_cases ht : t.source_id = c.source_id
    · simp only [update_or_create, if_pos ht]
      exact ⟨applyDefaults t c now, List.mem_cons_self _ _, ht⟩
    · simp only [update_or_create, if_neg ht]
      obtain ⟨v, hv, hvx⟩ := ih
      exact ⟨v, List.mem_cons_of_mem _ hv, hvx⟩

theorem exists_sid_reconcileStep (now : ℕ) (c : Candidate) (x : Str)
    (store : List Trend) (h : ∃ t ∈ store, t.source_id = x) :
    ∃ t ∈ reconcileStep now store c, t.source_id = x := by
  unfold reconcileStep
  by_cases hc : c.source_id = []
  · rw [if_pos hc]; exact h
  · rw [if_neg hc]; exact exists_sid_update_or_create c now x store h

theorem exists_sid_reconcile (now : ℕ) (x : Str) :
    ∀ (cs : List Candidate) (store : List Trend),
      (∃ t ∈ store, t.source_id = x) →
      ∃ t ∈ reconcile cs now store, t.source_id = x := by
  intro cs
  induction cs with
  | nil => intro store h; exact h
  | cons c cs ih =>
    intro store h
    exact ih (reconcileStep now store c) (exists_sid_reconcileStep now c x store h)

theorem reconcile_covers (now : ℕ) :
    ∀ (cs : List Candidate) (store : List Trend) (c : Candidate),
      c ∈ cs → c.source_id ≠ [] →
      ∃ t ∈ reconcile cs now store, t.source_id = c.source_id := by
  intro cs
  induction cs with
  | nil => intro store c h; exact absurd h (List.not_mem_nil c)
  | cons c' cs ih =>
    intro store c hmem hne
    rcases List.mem_cons.mp hmem with rfl | h
    · show ∃ t ∈ reconcile cs now (reconcileStep now store c), _
      apply exists_sid_reconcile
      unfold reconcileStep
      rw [if_neg hne]
      exact self_sid_update_or_create c now store
    · exact ih (reconcileStep now store c') c h hne

theorem reconcile_map_sidCreated (now : ℕ) :
    ∀ (cs : List Candidate) (store : List Trend),
      (∀ c ∈ cs, c.source_id ≠ [] → ∃ t ∈ store, t.source_id = c.source_id) →
      (reconcile cs now store).map sidCreated = store.map sidCreated := by
  intro cs
  induction cs with
  | nil => intro store _; rfl
  | cons c cs ih =>
    intro store h
    have hstep : (reconcileStep now store c).map sidCreated
        = store.map sidCreated := by
      unfold reconcileStep
      by_cases hc : c.source_id = []
      · rw [if_pos hc]
      · rw [if_neg hc]
        exact update_or_create_map_sidCreated c now store
          (h c (List.mem_cons_self c cs) hc)
    calc (reconcile (c :: cs) now store).map sidCreated
        = (reconcile cs now (reconcileStep now store c)).map sidCreated := rfl
      _ = (reconcileStep now store c).map sidCreated :=
          ih _ (fun c' hc' hne =>
            exists_sid_reconcileStep now c _ store (h c' (List.mem_cons_of_mem c hc') hne))
      _ = store.map sidCreated := hstep

/-- **C1.**  Reconciliation is an idempotent upsert keyed on `source_id`:
when no stored row carries the candidate's `source_id`, `update_or_create`
appends a fresh row whose `created_at` (and `updated_at`) is now; when the
first matching row is found, it is overwritten in place via `applyDefaults`
(all mutable fields replaced, `updated_at` refreshed, `source_id` and
`created_at` kept); consequently a second engine run over the same candidate
set changes no row's `(source_id, created_at)` projection and leaves the
store with the same number of rows as one run. -/
theorem trendzee_C1_reconciliation_idempotent_upsert :
    ∀ (store pre post : List Trend) (t : Trend) (c : Candidate)
      (cs : List Candidate) (t1 t2 : ℕ),
      ((∀ u ∈ store, u.source_id ≠ c.source_id) →
        update_or_create c t1 store = store ++ [newTrend c t1])
      ∧ ((∀ u ∈ pre, u.source_id ≠ c.source_id) → t.source_id = c.source_id →
        update_or_create c t1 (pre ++ t :: post)
          = pre ++ applyDefaults t c t1 :: post)
      ∧ (reconcile cs t2 (reconcile cs t1 store)).map sidCreated
          = (reconcile cs t1 store).map sidCreated
      ∧ (reconcile cs t2 (reconcile cs t1 store)).length
          = (reconcile cs t1 store).length := by
  intro store pre post t c cs t1 t2
  have htwice : (reconcile cs t2 (reconcile cs t1 store)).map sidCreated
      = (reconcile cs t1 store).map sidCreated :=
    reconcile_map_sidCreated t2 cs _
      (fun c' hc' hne => reconcile_covers t1 cs store c' hc' hne)
  refine ⟨update_or_create_not_found c t1 store,
    update_or_create_found c t1 pre t post, htwice, ?_⟩
  have hlen := congrArg List.length htwice
  simpa [List.length_map] using hlen

/-- Witness for C1: a fresh candidate is appended; a matching candidate
overwrites in place; a second run of a two-candidate set keeps the store
size of the first run. -/
theorem trendzee_C1_witness :
    update_or_create candA 3 [] = [newTrend candA 3]
    ∧ update_or_create candB 3 [newTrend candA 3, newTrend candB 3]
        = [newTrend candA 3, applyDefaults (newTrend candB 3) candB 3]
    ∧ (reconcile [candA, candB] 7 (reconcile [candA, candB] 3 [])).length
        = (reconcile [candA, candB] 3 []).length :=
  ⟨(trendzee_C1_reconciliation_idempotent_upsert [] [] [] (newTrend candA 3)
      candA [] 3 7).1 (by decide),
   (trendzee_C1_reconciliation_idempotent_upsert [] [newTrend candA 3] []
      (newTrend candB 3) candB [] 3 7).2.1 (by decide) (by decide),
   (trendzee_C1_reconciliation_idempotent_upsert [] [] [] (newTrend candA 3)
      candA [candA, candB] 3 7).2.2.2⟩

/-!  ## News-identifier truncation  -/

theorem leBytes_length (k : Nat) : ∀ n, (leBytes k n).length = k := by
  induction k with
  | zero => intro n; rfl
  | succ k ih => intro n; simp [leBytes, ih]

theorem md5digest_length (bs : List Nat) : (md5digest bs).length = 16 := by
  unfold md5digest
  simp [List.length_append, leBytes_length]

theorem md5_hexdigest_ne_nil (bs : List Nat) : md5_hexdigest bs ≠ [] := by
  unfold md5_hexdigest bytesToHex
  have h := md5digest_length bs
  cases hd : md5digest bs with
  | nil => rw [hd] at h; simp at h
  | cons b tl => simp

/-- Upserting two candidates that share a non-empty `source_id` into an
empty store yields exactly one row. -/
theorem reconcile_pair_single (c1 c2 : Candidate) (now : ℕ)
    (hsid : c1.source_id = c2.source_id) (hne : c1.source_id ≠ []) :
    (reconcile [c1, c2] now []).length = 1 := by
  have hne2 : c2.source_id ≠ [] := hsid ▸ hne
  have h1 : reconcileStep now [] c1 = [newTrend c1 now] := by
    unfold reconcileStep
    rw [if_neg hne]
    rfl
  have hmatch : (newTrend c1 now).source_id = c2.source_id := hsid
  have h2 : reconcileStep now [newTrend c1 now] c2
      = [applyDefaults (newTrend c1 now) c2 now] := by
    unfold reconcileStep
    rw [if_neg hne2]
    show update_or_create c2 now [newTrend c1 now] = _
    simp only [update_or_create, if_pos hmatch]
  calc (reconcile [c1, c2] now []).length
      = (reconcileStep now (reconcileStep now [] c1) c2).length := rfl
    _ = 1 := by rw [h1, h2]; rfl

/-- **C10.**  News identifier truncation: both news paths hash only the
first 100 characters of the lower-cased (stripped) title into `source_id`,
so a GNews article and an RSS entry whose candidate titles agree
case-insensitively on their first 100 characters get the same `source_id`,
and reconciling both leaves a single stored row. -/
theorem trendzee_C10_news_id_truncation :
    ∀ (i j : ℕ) (a : Article) (e : RssEntry) (now : ℕ),
      (lcase ((gnewsItem i a).title)).take 100
          = (lcase ((newsRssItem j e).title)).take 100 →
      (gnewsItem i a).source_id = (newsRssItem j e).source_id
      ∧ (reconcile [gnewsItem i a, newsRssItem j e] now []).length = 1 := by
  intro i j a e now h
  have hsid : (gnewsItem i a).source_id = (newsRssItem j e).source_id := by
    show _make_source_id ("news".toList) ((lcase (stripStr a.title)).take 100)
        = _make_source_id ("news".toList) ((lcase (stripStr e.title)).take 100)
    rw [show (lcase (stripStr a.title)).take 100
        = (lcase ((gnewsItem i a).title)).take 100 from rfl, h]
    rfl
  exact ⟨hsid, reconcile_pair_single _ _ now hsid (md5_hexdigest_ne_nil _)⟩

/-- Witness for C10: an article and an RSS entry whose titles differ only by
case produce one shared row. -/
theorem trendzee_C10_witness :
    (gnewsItem 0 artW).source_id = (newsRssItem 3 rssW).source_id
    ∧ (reconcile [gnewsItem 0 artW, newsRssItem 3 rssW] 5 []).length = 1 :=
  trendzee_C10_news_id_truncation 0 3 artW rssW 5 (by decide)

/-!  ## Filtering and ordering (`get_filtered_trends`)  -/

theorem mem_ite_filter {p : Prop} [Decidable p] (l : List Trend)
    (f : Trend → Bool) (t : Trend) :
    (t ∈ if p then l else l.filter f) ↔ t ∈ l ∧ (¬ p → f t = true) := by
  by_cases hp : p
  · simp [hp]
  · simp [hp, List.mem_filter]

/-- **C6 (amended).**  Filter conjunction and ordering: `get_filtered_trends`
returns exactly the stored rows matching every supplied (non-empty) filter —
`search` matching case-insensitively as a substring of title OR description —
ordered by descending `score` only.  (The explicit `order_by('-score')`
replaces the model's default `['-score', '-created_at']` ordering, so equal
scores are NOT tie-broken by `created_at`; in the embedding ties keep the
underlying table order.) -/
theorem trendzee_C6_filter_conjunction_ordering :
    ∀ (store : List Trend) (category search platform source : Str),
      (∀ t : Trend,
        t ∈ get_filtered_trends store category search platform source ↔
        (t ∈ store
          ∧ (category ≠ [] → t.category = category)
          ∧ (platform ≠ [] → t.platform = platform)
          ∧ (source ≠ [] → t.source = source)
          ∧ (search ≠ [] →
              (icontainsB t.title search = true
                ∨ icontainsB t.description search = true))))
      ∧ List.Pairwise (fun a b : Trend => b.score ≤ a.score)
          (get_filtered_trends store category search platform source) := by
  intro store category search platform source
  constructor
  · intro t
    simp only [get_filtered_trends]
    rw [(List.perm_insertionSort scoreDesc _).mem_iff]
    rw [mem_ite_filter, mem_ite_filter, mem_ite_filter, mem_ite_filter]
    simp only [decide_eq_true_eq, Bool.or_eq_true, ne_eq]
    tauto
  · exact List.sorted_insertionSort scoreDesc _

/-- Counterexample to C6 as stated: two stored rows tie on `score` with the
older row (smaller `created_at`) inserted first; the returned sequence keeps
the older row first, so it is *not* sorted by score descending with ties
broken by descending `created_at`. -/
theorem trendzee_C6_counterexample :
    get_filtered_trends [trTieOld, trTieNew] [] [] [] [] = [trTieOld, trTieNew]
    ∧ trTieOld.score = trTieNew.score
    ∧ trTieOld.created_at < trTieNew.created_at
    ∧ ¬ List.Pairwise (fun a b : Trend =>
        b.score < a.score ∨ (b.score = a.score ∧ b.created_at ≤ a.created_at))
      (get_filtered_trends [trTieOld, trTieNew] [] [] [] []) :=
  ⟨by decide, by decide, by decide, by decide⟩

/-- Witness for the amended C6 at a concrete store: with no filters supplied
every row is returned and the result is sorted by descending score. -/
theorem trendzee_C6_witness :
    trTieOld ∈ get_filtered_trends [trTieOld, trTieNew] [] [] [] []
    ∧ List.Pairwise (fun a b : Trend => b.score ≤ a.score)
        (get_filtered_trends [trTieOld, trTieNew] [] [] [] []) :=
  ⟨((trendzee_C6_filter_conjunction_ordering [trTieOld, trTieNew]
      [] [] [] []).1 trTieOld).mpr
      ⟨by decide, by decide, by decide, by decide, by decide⟩,
   (trendzee_C6_filter_conjunction_ordering [trTieOld, trTieNew] [] [] [] []).2⟩
